import Mathlib

/-
Shallow embedding of `src/group3/code/data.py`.

The repository is a thin data-preparation layer: a primary dataset container
(`SentenceComplexityDataset`) holding a tokenized batch (a string-keyed
mapping of rectangular numeric arrays), an identifier vector and an optional
target vector; an adapter (`SentenceComplexityFinetuningDataset`) that wraps a
container and strips the `id` entry from each returned item; and a loader
(`get_dataset`) that reads a CSV into a container.

Modelling choices:
- Numeric scalars (tensor entries, ids, MOS scores) are rationals; tensor
  conversion (`Tensor(...)`) is the identity on the stored numbers.
- A Python dict is an association list with insertion-order semantics:
  assignment (`d[k] = v`) updates an existing entry in place or appends,
  `pop(k, None)` removes the entries with that key, lookup takes the first
  matching entry.
- Tensor indexing (`t[idx]`, `t[idx, :]`) follows Python semantics: an index
  in `[0, n)` is used directly, one in `[-n, 0)` counts from the end, any
  other raises IndexError, modelled as `none`.
- The item dicts returned by `__getitem__` are freshly allocated; to express
  the mutation done by the adapter's `pop`, item dicts live in an explicit
  store (list of items, address = position, allocation appends) threaded
  through the store-level operations. The container objects' own fields are
  never reassigned by any method in the source, so they stay plain record
  values.
- Fallible operations return `Option` (index errors) or `Except String`
  (KeyError on a missing dict/CSV key).
- The external tokenizer (`BertTokenizer`) is a parameter: any function from
  sentence lists to a tokenized batch; properties the library guarantees
  (one batch row per sentence, fixed field names) become hypotheses.
-/

/-- A value stored in an item mapping: a scalar (an `id`, a `label`) or one
row of a tokenized-batch field. -/
inductive Val where
  | scalar : ℚ → Val
  | vec : List ℚ → Val
deriving DecidableEq

/-- An item returned by `__getitem__`: a Python dict from string keys to
values, as an insertion-ordered association list. -/
abbrev Item := List (String × Val)

/-- Python dict lookup: the value of the first entry with the given key. -/
def dictGet (d : Item) (k : String) : Option Val :=
  (d.find? (fun p => p.1 == k)).map Prod.snd

/-- Python dict assignment `d[k] = v`: update the entry in place if the key
is present, else append a new entry. -/
def dictSet (d : Item) (k : String) (v : Val) : Item :=
  if d.any (fun p => p.1 == k) then d.map (fun p => if p.1 == k then (k, v) else p)
  else d ++ [(k, v)]

/-- Python `d.pop(k, None)`: remove the entries with key `k`; a no-op when
the key is absent. -/
def dictPop (d : Item) (k : String) : Item :=
  d.filter (fun p => p.1 != k)

/-- Python/Torch index resolution on an axis of size `n`: `i ∈ [0, n)` is
used directly, `i ∈ [-n, 0)` counts from the end, anything else is an
IndexError (`none`). -/
def pyIndex (n : Nat) (i : Int) : Option Nat :=
  if 0 ≤ i ∧ i < (n : Int) then some i.toNat
  else if -(n : Int) ≤ i ∧ i < 0 then some ((n : Int) + i).toNat
  else none

/-- Indexing the first axis of a tensor modelled as a list. -/
def pyGet {α : Type} (t : List α) (i : Int) : Option α :=
  (pyIndex t.length i).bind (fun j => t.get? j)

/-- Indexing a 1-D tensor: `t[idx]`. -/
def tensorGet1 (t : List ℚ) (i : Int) : Option ℚ :=
  pyGet t i

/-- Slicing one row out of a 2-D tensor: `t[idx, :]`. -/
def tensorRow (t : List (List ℚ)) (i : Int) : Option (List ℚ) :=
  pyGet t i

/-- The primary dataset container (`SentenceComplexityDataset`): the
tokenized batch `st` (field name to 2-D tensor), the identifier vector `id`,
and the optional target vector `mos` (`None` when the source data had no
target column). -/
structure SentenceComplexityDataset where
  st : List (String × List (List ℚ))
  id : List ℚ
  mos : Option (List ℚ)
deriving DecidableEq

/-- The raw `data` dict handed to `SentenceComplexityDataset.__init__`:
each field is `some` when the corresponding key is present. -/
structure RawData where
  st : Option (List (String × List (List ℚ)))
  id : Option (List ℚ)
  mos : Option (List ℚ)
deriving DecidableEq

/-- Model of `SentenceComplexityDataset.__init__`: reads `data['st']` and
`data['id']` (a missing key is an uncaught KeyError), and converts
`data['mos']` when present — the `try/except KeyError` leaves `mos = None`
when the key is absent. -/
def SentenceComplexityDataset.init (data : RawData) :
    Except String SentenceComplexityDataset :=
  match data.st with
  | none => Except.error "KeyError: st"
  | some stv =>
    match data.id with
    | none => Except.error "KeyError: id"
    | some idv => Except.ok { st := stv, id := idv, mos := data.mos }

/-- Model of `SentenceComplexityDataset.__len__`: `len(self.id)`. -/
def SentenceComplexityDataset.len (d : SentenceComplexityDataset) : Nat :=
  d.id.length

/-- The dict comprehension `{key: val[idx, :] for key, val in self.st.items()}`:
build the item field by field; an IndexError in any row slice aborts the call. -/
def stItems (st : List (String × List (List ℚ))) (idx : Int) : Option Item :=
  match st with
  | [] => some []
  | p :: rest =>
    match tensorRow p.2 idx with
    | none => none
    | some row =>
      match stItems rest idx with
      | none => none
      | some tail => some ((p.1, Val.vec row) :: tail)

/-- The contents of the dict built by
`SentenceComplexityDataset.__getitem__(idx)`: the tokenized rows, then
`item['id'] = self.id[idx]`, then `item['label'] = self.mos[idx]` when
targets are set. `none` is an IndexError propagating out of the call. -/
def SentenceComplexityDataset.getitemVal (d : SentenceComplexityDataset)
    (idx : Int) : Option Item :=
  match stItems d.st idx with
  | none => none
  | some base =>
    match tensorGet1 d.id idx with
    | none => none
    | some idv =>
      let item := dictSet base "id" (Val.scalar idv)
      match d.mos with
      | none => some item
      | some m =>
        match tensorGet1 m idx with
        | none => none
        | some mv => some (dictSet item "label" (Val.scalar mv))

/-- The store of live item dicts: address = position, allocation appends.
Only the item dicts are heap-modelled, because the adapter's `pop` is the
sole in-place mutation in the source. -/
abbrev Store := List Item

/-- Model of `SentenceComplexityDataset.__getitem__` at the store level: on success
it allocates a fresh dict holding the computed contents and returns its
address; on IndexError the store is unchanged. -/
def SentenceComplexityDataset.getitem (d : SentenceComplexityDataset)
    (idx : Int) (s : Store) : Option Nat × Store :=
  match d.getitemVal idx with
  | none => (none, s)
  | some it => (some s.length, s ++ [it])

/-- What a duck-typed wrappable dataset exposes to
`SentenceComplexityFinetuningDataset`: `__len__` and a store-level
`__getitem__`. The primary container, a subset view, or another adapter all
give one. -/
structure Wrapped where
  len : Nat
  getitem : Int → Store → Option Nat × Store

/-- View the primary container through the duck-typed interface. -/
def SentenceComplexityDataset.toWrapped (d : SentenceComplexityDataset) : Wrapped :=
  { len := d.len, getitem := d.getitem }

/-- The fine-tuning adapter (`SentenceComplexityFinetuningDataset`): wraps a
dataset, stores nothing else. -/
structure SentenceComplexityFinetuningDataset where
  dataset : Wrapped

/-- Model of `SentenceComplexityFinetuningDataset.__len__`: `len(self.dataset)`. -/
def SentenceComplexityFinetuningDataset.len
    (f : SentenceComplexityFinetuningDataset) : Nat :=
  f.dataset.len

/-- Model of `SentenceComplexityFinetuningDataset.__getitem__`: `item = self.dataset[idx]`,
then `item.pop('id', None)` mutates that dict in place, then the same dict is
returned. An IndexError from the wrapped dataset propagates. -/
def SentenceComplexityFinetuningDataset.getitem
    (f : SentenceComplexityFinetuningDataset) (idx : Int) (s : Store) :
    Option Nat × Store :=
  match f.dataset.getitem idx s with
  | (none, s') => (none, s')
  | (some a, s') =>
    match s'.get? a with
    | none => (none, s')
    | some it => (some a, s'.set a (dictPop it "id"))

/-- View the adapter itself through the duck-typed interface (the source's
duck typing lets an adapter wrap another adapter). -/
def SentenceComplexityFinetuningDataset.toWrapped
    (f : SentenceComplexityFinetuningDataset) : Wrapped :=
  { len := f.len, getitem := f.getitem }

/-- Reading an item-access result back out of the store: the contents of the
dict the caller received, `none` on IndexError. -/
def Wrapped.contents (w : Wrapped) (idx : Int) (s : Store) : Option Item :=
  ((w.getitem idx s).1).bind (fun a => ((w.getitem idx s).2).get? a)

/-- A wrapped dataset implements a pure item function `f` when its
store-level `__getitem__` allocates a fresh dict with contents `f idx`
(and touches nothing else), failing exactly when `f idx` does. -/
def Wrapped.Implements (w : Wrapped) (f : Int → Option Item) : Prop :=
  ∀ idx s, w.getitem idx s =
    match f idx with
    | none => (none, s)
    | some it => (some s.length, s ++ [it])

/-- The external tokenizer: sentences in, tokenized batch out. -/
abbrev Tokenizer := List String → List (String × List (List ℚ))

/-- The tokenizer library's shape guarantee: each field of the batch has one
row per input sentence. -/
def TokenizerShapes (tok : Tokenizer) : Prop :=
  ∀ ss : List String, ∀ p ∈ tok ss, p.2.length = ss.length

/-- The tokenizer library's field names (`input_ids`, `attention_mask`, ...)
never include the container's reserved key `label`. -/
def TokenizerNoLabelKey (tok : Tokenizer) : Prop :=
  ∀ ss : List String, "label" ∉ (tok ss).map Prod.fst

/-- A parsed CSV file as the loader sees it through the dataframe: each
recognized column is `some` list of cell values when present. -/
structure CSVFile where
  sent_id : Option (List ℚ)
  sentence : Option (List String)
  mos : Option (List ℚ)

/-- Model of `get_dataset`: read the `sent_id` and `sentence` columns (a missing one
is an uncaught KeyError), read `MOS` under `try/except KeyError`, tokenize,
assemble the data dict — `if mos_targets:` adds the `mos` key only when the
target list is present and non-empty — and construct the container. -/
def get_dataset (tok : Tokenizer) (csv : CSVFile) :
    Except String SentenceComplexityDataset :=
  match csv.sent_id with
  | none => Except.error "KeyError: sent_id"
  | some sent_ids =>
    match csv.sentence with
    | none => Except.error "KeyError: sentence"
    | some sentences =>
      let mos_targets : Option (List ℚ) := csv.mos
      let sentences_tokenized := tok sentences
      let data : RawData :=
        { st := some sentences_tokenized
          id := some sent_ids
          mos :=
            match mos_targets with
            | none => none
            | some m => if m.isEmpty then none else some m }
      SentenceComplexityDataset.init data

/-- The data-model invariant of the primary container: every tokenized-batch
field has first-axis size `len(id)`, and the target vector, when present,
has that length too. -/
def DatasetInvariant (d : SentenceComplexityDataset) : Prop :=
  (∀ p ∈ d.st, p.2.length = d.id.length) ∧
  (∀ m ∈ d.mos, m.length = d.id.length)

instance decidableBAllOption {α : Type} (p : α → Prop) [DecidablePred p] :
    (o : Option α) → Decidable (∀ a ∈ o, p a)
  | none => isTrue (by simp)
  | some x => decidable_of_iff (p x) (by simp)

instance (d : SentenceComplexityDataset) : Decidable (DatasetInvariant d) :=
  inferInstanceAs (Decidable (_ ∧ _))

/-! Concrete instances used to evaluate the definitions on closed inputs. -/

/-- A small two-sentence tokenized batch with the standard field names. -/
def exSt : List (String × List (List ℚ)) :=
  [("input_ids", [[1, 2], [3, 4]]), ("attention_mask", [[1, 1], [1, 0]])]

/-- A small two-row primary container with targets. -/
def exDataset : SentenceComplexityDataset :=
  { st := exSt, id := [10, 20], mos := some [3, 5] }

/-- A small two-row primary container without targets. -/
def exDatasetNoMos : SentenceComplexityDataset :=
  { st := exSt, id := [10, 20], mos := none }

/-- A toy stand-in for the external tokenizer: one fixed-width row per
sentence, the standard field names. -/
def toyTokenizer : Tokenizer := fun ss =>
  [("input_ids", ss.map (fun _ => [1, 0])), ("attention_mask", ss.map (fun _ => [1, 1]))]

/-- A two-row CSV with all three recognized columns. -/
def exCSV : CSVFile :=
  { sent_id := some [1, 2], sentence := some ["a b", "c"], mos := some [3, 5] }

/-- The same CSV without the target column. -/
def exCSVNoMos : CSVFile :=
  { sent_id := some [1, 2], sentence := some ["a b", "c"], mos := none }

/-- A CSV missing the required identifier column. -/
def exCSVNoId : CSVFile :=
  { sent_id := none, sentence := some ["a b", "c"], mos := some [3, 5] }

/-! Index-resolution lemmas. -/

theorem pyIndex_lt {n : Nat} {i : Int} {j : Nat} (h : pyIndex n i = some j) :
    j < n := by
  unfold pyIndex at h
  split at h
  · rename_i h1
    injection h with hj
    omega
  · split at h
    · rename_i h1 h2
      injection h with hj
      omega
    · exact absurd h (by simp)

theorem pyIndex_ofNat {n i : Nat} (h : i < n) : pyIndex n i = some i := by
  unfold pyIndex
  rw [if_pos]
  · simp
  · constructor <;> omega

theorem pyIndex_neg {n k : Nat} (h1 : 1 ≤ k) (h2 : k ≤ n) :
    pyIndex n (-(k : Int)) = some (n - k) := by
  unfold pyIndex
  rw [if_neg, if_pos]
  · congr 1
    omega
  · constructor <;> omega
  · omega

theorem pyIndex_eq_none_iff {n : Nat} {i : Int} :
    pyIndex n i = none ↔ ¬(-(n : Int) ≤ i ∧ i < (n : Int)) := by
  unfold pyIndex
  by_cases h1 : 0 ≤ i ∧ i < (n : Int)
  · rw [if_pos h1]
    simp
    omega
  · rw [if_neg h1]
    by_cases h2 : -(n : Int) ≤ i ∧ i < 0
    · rw [if_pos h2]
      simp
      omega
    · rw [if_neg h2]
      simp
      omega

theorem pyGet_eq_none_iff {α : Type} (t : List α) (i : Int) :
    pyGet t i = none ↔ pyIndex t.length i = none := by
  unfold pyGet
  cases h : pyIndex t.length i with
  | none => simp
  | some j =>
    have hj := pyIndex_lt h
    simp [List.get?_eq_none]
    omega

theorem pyGet_nat {α : Type} {t : List α} {i : Nat} (h : i < t.length) :
    pyGet t i = t.get? i := by
  simp [pyGet, pyIndex_ofNat h]

theorem pyGet_congr {α : Type} {t : List α} {i j : Int}
    (h : pyIndex t.length i = pyIndex t.length j) : pyGet t i = pyGet t j := by
  unfold pyGet
  rw [h]

/-! Dict lemmas. -/

theorem find?_setentry_ne (rest : Item) (k k' : String) (v : Val) (hne : k' ≠ k) :
    List.find? (fun p => p.1 == k') (rest.map (fun p => if p.1 == k then (k, v) else p)) =
      (List.find? (fun p => p.1 == k') rest).map (fun p => if p.1 == k then (k, v) else p) := by
  induction rest with
  | nil => simp
  | cons p tail ih =>
    by_cases hp : p.1 = k
    · rw [List.map_cons, if_pos (by simp [hp]),
        List.find?_cons_of_neg _ (by simp [Ne.symm hne]),
        List.find?_cons_of_neg _ (by simp [hp, Ne.symm hne]), ih]
    · rw [List.map_cons, if_neg (by simp [hp])]
      by_cases hq : p.1 = k'
      · rw [List.find?_cons_of_pos _ (by simp [hq]),
          List.find?_cons_of_pos _ (by simp [hq])]
        simp [hp]
      · rw [List.find?_cons_of_neg _ (by simp [hq]),
          List.find?_cons_of_neg _ (by simp [hq]), ih]

theorem snd_setentry_ne (rest : Item) (k k' : String) (v : Val) (hne : k' ≠ k) :
    Option.map Prod.snd (List.find? (fun p => p.1 == k')
        (rest.map (fun p => if p.1 == k then (k, v) else p))) =
      Option.map Prod.snd (List.find? (fun p => p.1 == k') rest) := by
  rw [find?_setentry_ne rest k k' v hne]
  cases h : List.find? (fun p => p.1 == k') rest with
  | none => rfl
  | some p =>
    have hp : p.1 = k' := by
      have := List.find?_some h
      simpa using this
    simp [hp, hne]

theorem find?_append_single_ne (rest : Item) (k k' : String) (v : Val) (hne : k' ≠ k) :
    List.find? (fun p => p.1 == k') (rest ++ [(k, v)]) =
      List.find? (fun p => p.1 == k') rest := by
  induction rest with
  | nil =>
    rw [List.nil_append, List.find?_cons_of_neg _ (by simp [Ne.symm hne])]
  | cons p tail ih =>
    by_cases hq : p.1 = k'
    · rw [List.cons_append, List.find?_cons_of_pos _ (by simp [hq]),
        List.find?_cons_of_pos _ (by simp [hq])]
    · rw [List.cons_append, List.find?_cons_of_neg _ (by simp [hq]),
        List.find?_cons_of_neg _ (by simp [hq]), ih]

theorem dictGet_dictSet_ne (d : Item) (k k' : String) (v : Val) (hne : k' ≠ k) :
    dictGet (dictSet d k v) k' = dictGet d k' := by
  unfold dictGet dictSet
  split
  · exact snd_setentry_ne d k k' v hne
  · rw [find?_append_single_ne d k k' v hne]

theorem dictGet_dictSet_self (d : Item) (k : String) (v : Val) :
    dictGet (dictSet d k v) k = some v := by
  unfold dictGet dictSet
  split
  · rename_i hany
    induction d with
    | nil => simp at hany
    | cons p rest ih =>
      by_cases hp : p.1 = k
      · rw [List.map_cons, if_pos (by simp [hp]), List.find?_cons_of_pos _ (by simp)]
        rfl
      · rw [List.map_cons, if_neg (by simp [hp]),
          List.find?_cons_of_neg _ (by exact (by simp [hp] : ¬((p.1 == k) = true)))]
        apply ih
        simp only [List.any_cons, Bool.or_eq_true] at hany
        rcases hany with h | h
        · exact absurd (by simpa using h) hp
        · exact h
  · rename_i hany
    induction d with
    | nil =>
      rw [List.nil_append, List.find?_cons_of_pos _ (by simp)]
      rfl
    | cons p rest ih =>
      simp only [List.any_cons, Bool.or_eq_true, not_or] at hany
      rw [List.cons_append, List.find?_cons_of_neg _ (by exact hany.1)]
      exact ih (by simpa using hany.2)

theorem dictGet_eq_none_of_not_mem {d : Item} {k : String}
    (h : k ∉ d.map Prod.fst) : dictGet d k = none := by
  unfold dictGet
  induction d with
  | nil => simp
  | cons p rest ih =>
    simp only [List.map_cons, List.mem_cons, not_or] at h
    rw [List.find?_cons_of_neg _ (by simp; exact fun hc => h.1 hc.symm)]
    exact ih h.2

theorem dictGet_isSome_iff_mem (d : Item) (k : String) :
    (dictGet d k).isSome ↔ k ∈ d.map Prod.fst := by
  unfold dictGet
  induction d with
  | nil => simp
  | cons p rest ih =>
    by_cases hq : p.1 = k
    · rw [List.find?_cons_of_pos _ (by simp [hq])]
      simp [hq]
    · rw [List.find?_cons_of_neg _ (by simp [hq])]
      simp only [List.map_cons, List.mem_cons]
      rw [ih]
      constructor
      · exact Or.inr
      · rintro (h | h)
        · exact absurd h.symm hq
        · exact h

theorem dictSet_not_mem_keys {d : Item} {k k' : String} {v : Val}
    (h : k' ∉ d.map Prod.fst) (hne : k' ≠ k) :
    k' ∉ (dictSet d k v).map Prod.fst := by
  unfold dictSet
  split
  · intro hc
    simp only [List.map_map, List.mem_map, Function.comp] at hc
    obtain ⟨p, hp, hpk⟩ := hc
    by_cases hq : p.1 = k
    · rw [if_pos (by simp [hq])] at hpk
      exact hne hpk.symm
    · rw [if_neg (by simp [hq])] at hpk
      exact h (List.mem_map.mpr ⟨p, hp, hpk⟩)
  · intro hc
    simp only [List.map_append, List.mem_append] at hc
    rcases hc with hc | hc
    · exact h hc
    · simp at hc
      exact hne hc

theorem dictGet_dictPop_self (d : Item) (k : String) :
    dictGet (dictPop d k) k = none := by
  unfold dictGet dictPop
  induction d with
  | nil => simp
  | cons p rest ih =>
    by_cases hq : p.1 = k
    · rw [List.filter_cons_of_neg (by simp [hq])]
      exact ih
    · rw [List.filter_cons_of_pos (by simp [hq]),
        List.find?_cons_of_neg _ (by simp [hq])]
      exact ih

theorem dictGet_dictPop_ne (d : Item) (k k' : String) (hne : k' ≠ k) :
    dictGet (dictPop d k) k' = dictGet d k' := by
  unfold dictGet dictPop
  induction d with
  | nil => simp
  | cons p rest ih =>
    by_cases hq : p.1 = k
    · rw [List.filter_cons_of_neg (by simp [hq]),
        List.find?_cons_of_neg _ (by simp [hq, Ne.symm hne])]
      exact ih
    · rw [List.filter_cons_of_pos (by simp [hq])]
      by_cases hr : p.1 = k'
      · rw [List.find?_cons_of_pos _ (by simp [hr]),
          List.find?_cons_of_pos _ (by simp [hr])]
      · rw [List.find?_cons_of_neg _ (by simp [hr]),
          List.find?_cons_of_neg _ (by simp [hr])]
        exact ih

theorem dictPop_eq_self_of_absent {d : Item} {k : String}
    (h : dictGet d k = none) : dictPop d k = d := by
  unfold dictPop
  unfold dictGet at h
  induction d with
  | nil => rfl
  | cons p rest ih =>
    by_cases hq : p.1 = k
    · rw [List.find?_cons_of_pos _ (by simp [hq])] at h
      simp at h
    · rw [List.find?_cons_of_neg _ (by simp [hq])] at h
      rw [List.filter_cons_of_pos (by simp [hq]), ih h]

/-! Lemmas about the item built by `__getitem__`. -/

theorem get?_isSome_of_lt {α : Type} {t : List α} {j : Nat} (h : j < t.length) :
    ∃ v, t.get? j = some v := by
  cases hg : t.get? j with
  | none =>
    rw [List.get?_eq_none] at hg
    omega
  | some v => exact ⟨v, rfl⟩

theorem pyGet_of_index {α : Type} {t : List α} {idx : Int} {j : Nat}
    (hj : pyIndex t.length idx = some j) : pyGet t idx = t.get? j := by
  unfold pyGet
  rw [hj]
  rfl

theorem stItems_keys {st : List (String × List (List ℚ))} {idx : Int} :
    ∀ {l : Item}, stItems st idx = some l → l.map Prod.fst = st.map Prod.fst := by
  induction st with
  | nil =>
    intro l h
    simp [stItems] at h
    subst h
    rfl
  | cons p rest ih =>
    intro l h
    unfold stItems at h
    cases hr : tensorRow p.2 idx with
    | none =>
      rw [hr] at h
      exact absurd h (by simp)
    | some row =>
      rw [hr] at h
      cases ht : stItems rest idx with
      | none =>
        rw [ht] at h
        exact absurd h (by simp)
      | some tail =>
        rw [ht] at h
        injection h with h
        subst h
        simp [ih ht]

theorem stItems_isSome {st : List (String × List (List ℚ))} {idx : Int} {n : Nat}
    (hn : ∀ p ∈ st, p.2.length = n) {j : Nat} (hj : pyIndex n idx = some j) :
    ∃ l, stItems st idx = some l := by
  induction st with
  | nil => exact ⟨[], rfl⟩
  | cons p rest ih =>
    obtain ⟨tail, htail⟩ := ih (fun q hq => hn q (List.mem_cons_of_mem p hq))
    have hlen : p.2.length = n := hn p (List.mem_cons_self p rest)
    have hjn : j < p.2.length := by
      rw [hlen]
      exact pyIndex_lt hj
    obtain ⟨row, hrow⟩ := get?_isSome_of_lt hjn
    have hrowe : tensorRow p.2 idx = some row := by
      unfold tensorRow
      rw [pyGet_of_index (by rw [hlen]; exact hj)]
      exact hrow
    refine ⟨(p.1, Val.vec row) :: tail, ?_⟩
    unfold stItems
    rw [hrowe, htail]

theorem stItems_congr {st : List (String × List (List ℚ))} {n : Nat}
    (hn : ∀ p ∈ st, p.2.length = n) {i j : Int}
    (h : pyIndex n i = pyIndex n j) : stItems st i = stItems st j := by
  induction st with
  | nil => rfl
  | cons p rest ih =>
    have hrow : tensorRow p.2 i = tensorRow p.2 j := by
      unfold tensorRow
      apply pyGet_congr
      rw [hn p (List.mem_cons_self p rest), h]
    unfold stItems
    rw [hrow, ih (fun q hq => hn q (List.mem_cons_of_mem p hq))]

theorem getitemVal_formula {d : SentenceComplexityDataset} {idx : Int}
    {base : Item} {idv : ℚ}
    (hbase : stItems d.st idx = some base)
    (hid : tensorGet1 d.id idx = some idv) :
    d.getitemVal idx =
      match d.mos with
      | none => some (dictSet base "id" (Val.scalar idv))
      | some m =>
        match tensorGet1 m idx with
        | none => none
        | some mv =>
          some (dictSet (dictSet base "id" (Val.scalar idv)) "label" (Val.scalar mv)) := by
  unfold SentenceComplexityDataset.getitemVal
  rw [hbase, hid]

theorem getitemVal_none_of_bad {d : SentenceComplexityDataset} {idx : Int}
    (h : pyIndex d.len idx = none) : d.getitemVal idx = none := by
  unfold SentenceComplexityDataset.getitemVal
  cases hs : stItems d.st idx with
  | none => rfl
  | some base =>
    have hid : tensorGet1 d.id idx = none := by
      unfold tensorGet1 pyGet
      rw [show pyIndex d.id.length idx = none from h]
      rfl
    rw [hid]

theorem getitemVal_isSome_of {d : SentenceComplexityDataset}
    (hinv : DatasetInvariant d) {idx : Int} {j : Nat}
    (hj : pyIndex d.len idx = some j) : ∃ it, d.getitemVal idx = some it := by
  obtain ⟨base, hbase⟩ := stItems_isSome hinv.1 (show pyIndex d.id.length idx = some j from hj)
  have hjlen : j < d.id.length := pyIndex_lt hj
  obtain ⟨idv, hidv⟩ := get?_isSome_of_lt hjlen
  have hid : tensorGet1 d.id idx = some idv := by
    unfold tensorGet1
    rw [pyGet_of_index (show pyIndex d.id.length idx = some j from hj)]
    exact hidv
  rw [getitemVal_formula hbase hid]
  cases hm : d.mos with
  | none => exact ⟨_, rfl⟩
  | some m =>
    have hmlen : j < m.length := by
      rw [hinv.2 m hm]
      exact hjlen
    obtain ⟨mv, hmv⟩ := get?_isSome_of_lt hmlen
    have hmg : tensorGet1 m idx = some mv := by
      unfold tensorGet1
      rw [pyGet_of_index (by rw [hinv.2 m hm]; exact hj)]
      exact hmv
    refine ⟨dictSet (dictSet base "id" (Val.scalar idv)) "label" (Val.scalar mv), ?_⟩
    show (match tensorGet1 m idx with
      | none => none
      | some mv =>
        some (dictSet (dictSet base "id" (Val.scalar idv)) "label" (Val.scalar mv))) = _
    rw [hmg]

/-- Everything `__getitem__` puts in a successfully built item: the call
succeeds, the `id` entry is the identifier at the resolved position, and the
`label` entry is the target at that position when targets are set, absent
when they are not. -/
theorem getitemVal_spec {d : SentenceComplexityDataset}
    (hinv : DatasetInvariant d) {idx : Int} {j : Nat}
    (hj : pyIndex d.len idx = some j) :
    ∃ it, d.getitemVal idx = some it ∧
      dictGet it "id" = (d.id.get? j).map Val.scalar ∧
      (∀ m, d.mos = some m → dictGet it "label" = (m.get? j).map Val.scalar) ∧
      (d.mos = none → "label" ∉ d.st.map Prod.fst → dictGet it "label" = none) := by
  obtain ⟨base, hbase⟩ :=
    stItems_isSome hinv.1 (show pyIndex d.id.length idx = some j from hj)
  have hjlen : j < d.id.length := pyIndex_lt hj
  obtain ⟨idv, hidv⟩ := get?_isSome_of_lt hjlen
  have hid : tensorGet1 d.id idx = some idv := by
    unfold tensorGet1
    rw [pyGet_of_index (show pyIndex d.id.length idx = some j from hj)]
    exact hidv
  rw [getitemVal_formula hbase hid]
  cases hm : d.mos with
  | none =>
    refine ⟨dictSet base "id" (Val.scalar idv), rfl, ?_, ?_, ?_⟩
    · rw [dictGet_dictSet_self, hidv]
      rfl
    · intro m hmm
      exact absurd hmm (by simp [hm])
    · intro _ hlab
      apply dictGet_eq_none_of_not_mem
      apply dictSet_not_mem_keys _ (by decide)
      rw [stItems_keys hbase]
      exact hlab
  | some m =>
    have hmlen : j < m.length := by
      rw [hinv.2 m hm]
      exact hjlen
    obtain ⟨mv, hmv⟩ := get?_isSome_of_lt hmlen
    have hmg : tensorGet1 m idx = some mv := by
      unfold tensorGet1
      rw [pyGet_of_index (by rw [hinv.2 m hm]; exact hj)]
      exact hmv
    refine ⟨dictSet (dictSet base "id" (Val.scalar idv)) "label" (Val.scalar mv),
      ?_, ?_, ?_, ?_⟩
    · show (match tensorGet1 m idx with
        | none => none
        | some mv =>
          some (dictSet (dictSet base "id" (Val.scalar idv)) "label" (Val.scalar mv))) = _
      rw [hmg]
    · rw [dictGet_dictSet_ne _ _ _ _ (by decide), dictGet_dictSet_self, hidv]
      rfl
    · intro m2 hm2
      injection hm2 with hm2
      subst hm2
      rw [dictGet_dictSet_self, hmv]
      rfl
    · intro hcontra
      exact absurd hcontra (by simp)

/-! Store-level lemmas. -/

theorem set_concat_length {α : Type} (s : List α) (a b : α) :
    (s ++ [a]).set s.length b = s ++ [b] := by
  rw [List.set_append, if_neg (by omega)]
  simp

/-- The primary container's store-level `__getitem__` realizes its pure item
function: it allocates one fresh dict and reads nothing from the store. -/
theorem base_implements (d : SentenceComplexityDataset) :
    d.toWrapped.Implements d.getitemVal := by
  intro idx s
  show d.getitem idx s = _
  unfold SentenceComplexityDataset.getitem
  cases d.getitemVal idx <;> rfl

/-- The adapter over any store-disciplined wrapped dataset realizes the
wrapped item function post-composed with dropping the `id` entry. -/
theorem adapter_implements {w : Wrapped} {f : Int → Option Item}
    (hw : w.Implements f) :
    (SentenceComplexityFinetuningDataset.mk w).toWrapped.Implements
      (fun i => (f i).map (fun it => dictPop it "id")) := by
  intro idx s
  show (SentenceComplexityFinetuningDataset.mk w).getitem idx s = _
  unfold SentenceComplexityFinetuningDataset.getitem
  rw [show (SentenceComplexityFinetuningDataset.mk w).dataset = w from rfl, hw idx s]
  show _ = match (f idx).map (fun it => dictPop it "id") with
    | none => (none, s)
    | some it => (some s.length, s ++ [it])
  cases f idx with
  | none => rfl
  | some it =>
    show (match (s ++ [it]).get? s.length with
      | none => (none, s ++ [it])
      | some x => (some s.length, (s ++ [it]).set s.length (dictPop x "id"))) =
      (some s.length, s ++ [dictPop it "id"])
    rw [List.get?_concat_length]
    show (some s.length, (s ++ [it]).set s.length (dictPop it "id")) = _
    rw [set_concat_length]

/-- Reading back the returned address gives exactly the pure item function. -/
theorem contents_of_implements {w : Wrapped} {f : Int → Option Item}
    (hw : w.Implements f) (idx : Int) (s : Store) :
    w.contents idx s = f idx := by
  unfold Wrapped.contents
  rw [hw idx s]
  cases f idx with
  | none => rfl
  | some it => simp [List.get?_concat_length]

/-- A store-disciplined `__getitem__` never changes a pre-existing cell. -/
theorem implements_frame {w : Wrapped} {f : Int → Option Item}
    (hw : w.Implements f) (idx : Int) (s : Store) {a : Nat} (ha : a < s.length) :
    ((w.getitem idx s).2).get? a = s.get? a := by
  rw [hw idx s]
  cases f idx with
  | none => rfl
  | some it => exact List.get?_append ha

/-- Evaluation of `get_dataset` on a CSV with the two required columns: the container it
builds, with the `if mos_targets:` truthiness drop of an empty target list. -/
theorem get_dataset_eq {tok : Tokenizer} {csv : CSVFile} {ids : List ℚ}
    {ss : List String} (hid : csv.sent_id = some ids)
    (hsent : csv.sentence = some ss) :
    get_dataset tok csv = Except.ok
      { st := tok ss, id := ids,
        mos :=
          match csv.mos with
          | none => none
          | some m => if m.isEmpty then none else some m } := by
  unfold get_dataset
  rw [hid, hsent]
  rfl

/-- The container built by `get_dataset` satisfies the data-model invariant
whenever the tokenizer emits one row per sentence and the CSV columns are
parallel (equal length). -/
theorem get_dataset_invariant {tok : Tokenizer} {csv : CSVFile}
    {d : SentenceComplexityDataset} (htok : TokenizerShapes tok)
    {ids : List ℚ} {ss : List String}
    (hid : csv.sent_id = some ids) (hsent : csv.sentence = some ss)
    (hlen : ids.length = ss.length)
    (hmos : ∀ ms ∈ csv.mos, ms.length = ss.length)
    (h : get_dataset tok csv = Except.ok d) :
    DatasetInvariant d := by
  rw [get_dataset_eq hid hsent] at h
  injection h with h
  subst h
  constructor
  · intro p hp
    show p.2.length = ids.length
    rw [hlen]
    exact htok ss p hp
  · cases hcm : csv.mos with
    | none =>
      intro m hm
      simp at hm
    | some ms =>
      intro m hm
      by_cases he : ms.isEmpty
      · simp [he] at hm
      · simp [he] at hm
        subst hm
        show ms.length = ids.length
        rw [hlen]
        exact hmos ms (by rw [hcm]; rfl)

/-- The item produced at a valid non-negative position of an
invariant-respecting container. -/
theorem dataset_items {d : SentenceComplexityDataset} (hinv : DatasetInvariant d)
    {i : Nat} (hi : i < d.len) :
    ∃ it, d.getitemVal (i : Int) = some it ∧
      dictGet it "id" = (d.id.get? i).map Val.scalar ∧
      (∀ m, d.mos = some m → dictGet it "label" = (m.get? i).map Val.scalar) ∧
      (d.mos = none → "label" ∉ d.st.map Prod.fst → dictGet it "label" = none) := by
  have hj : pyIndex d.len (i : Int) = some i := pyIndex_ofNat hi
  exact getitemVal_spec hinv hj

/-- C1: for a valid `n`-row CSV with `sent_id`, `sentence` and `MOS`
columns, the loaded container has length `n` and `item_at(i)` maps `id` to
row `i`'s `sent_id` and `label` to row `i`'s `MOS`; for a CSV lacking `MOS`,
every `item_at(i)` result lacks the `label` key. -/
theorem C1_loader_items (tok : Tokenizer) (csv : CSVFile) (n : Nat)
    (ids : List ℚ) (ss : List String)
    (htokshape : TokenizerShapes tok) (htoklabel : TokenizerNoLabelKey tok)
    (hid : csv.sent_id = some ids) (hsent : csv.sentence = some ss)
    (hidn : ids.length = n) (hssn : ss.length = n) :
    (∀ ms, csv.mos = some ms → ms.length = n →
      ∃ d, get_dataset tok csv = Except.ok d ∧ d.len = n ∧
        ∀ i : Nat, i < n → ∃ it, d.getitemVal (i : Int) = some it ∧
          dictGet it "id" = (ids.get? i).map Val.scalar ∧
          dictGet it "label" = (ms.get? i).map Val.scalar) ∧
    (csv.mos = none →
      ∃ d, get_dataset tok csv = Except.ok d ∧ d.len = n ∧
        ∀ i : Nat, i < n → ∃ it, d.getitemVal (i : Int) = some it ∧
          dictGet it "id" = (ids.get? i).map Val.scalar ∧
          dictGet it "label" = none) := by
  have hld := @get_dataset_eq tok csv ids ss hid hsent
  constructor
  · intro ms hms hmsn
    refine ⟨_, hld, hidn, ?_⟩
    intro i hi
    have hinv := get_dataset_invariant htokshape hid hsent
      (by rw [hidn, hssn]) (by intro x hx; rw [hms] at hx; simp at hx; subst hx; rw [hssn, hmsn]) hld
    have hlen : (SentenceComplexityDataset.len
        { st := tok ss, id := ids,
          mos := match csv.mos with
                 | none => none
                 | some m => if m.isEmpty then none else some m }) = n := hidn
    obtain ⟨it, hit, hitid, hitsome, _⟩ := dataset_items hinv (by rw [hlen]; exact hi)
    refine ⟨it, hit, hitid, ?_⟩
    have hne : ¬ ms.isEmpty := by
      cases ms with
      | nil => simp at hmsn; omega
      | cons a l => simp
    refine hitsome ms ?_
    show (match csv.mos with
      | none => none
      | some m => if m.isEmpty then none else some m) = some ms
    rw [hms]
    show (if ms.isEmpty then none else some ms : Option (List ℚ)) = some ms
    rw [if_neg hne]
  · intro hnone
    refine ⟨_, hld, hidn, ?_⟩
    intro i hi
    have hinv := get_dataset_invariant htokshape hid hsent
      (by rw [hidn, hssn]) (by intro x hx; rw [hnone] at hx; simp at hx) hld
    have hlen : (SentenceComplexityDataset.len
        { st := tok ss, id := ids,
          mos := match csv.mos with
                 | none => none
                 | some m => if m.isEmpty then none else some m }) = n := hidn
    obtain ⟨it, hit, hitid, _, hitnone⟩ := dataset_items hinv (by rw [hlen]; exact hi)
    refine ⟨it, hit, hitid, ?_⟩
    refine hitnone ?_ (htoklabel ss)
    show (match csv.mos with
      | none => none
      | some m => if m.isEmpty then none else some m) = none
    rw [hnone]

/-- Under the data-model invariant, `__getitem__` raises IndexError exactly
when the index is outside `[-len, len)`. -/
theorem getitemVal_eq_none_iff {d : SentenceComplexityDataset}
    (hinv : DatasetInvariant d) (idx : Int) :
    d.getitemVal idx = none ↔
      ¬(-(d.len : Int) ≤ idx ∧ idx < (d.len : Int)) := by
  constructor
  · intro h
    by_contra hc
    cases hpj : pyIndex d.len idx with
    | none =>
      rw [pyIndex_eq_none_iff] at hpj
      exact hpj (by omega)
    | some j =>
      obtain ⟨it, hit⟩ := getitemVal_isSome_of hinv hpj
      rw [hit] at h
      exact absurd h (by simp)
  · intro h
    apply getitemVal_none_of_bad
    rw [pyIndex_eq_none_iff]
    exact h

/-- Two indexes resolving to the same position produce the same item. -/
theorem getitemVal_congr {d : SentenceComplexityDataset}
    (hinv : DatasetInvariant d) {i j : Int}
    (h : pyIndex d.len i = pyIndex d.len j) :
    d.getitemVal i = d.getitemVal j := by
  unfold SentenceComplexityDataset.getitemVal
  have hid : tensorGet1 d.id i = tensorGet1 d.id j := by
    unfold tensorGet1
    exact pyGet_congr h
  rw [stItems_congr hinv.1 h, hid]
  cases stItems d.st j with
  | none => rfl
  | some base =>
    cases tensorGet1 d.id j with
    | none => rfl
    | some idv =>
      cases hm : d.mos with
      | none => rfl
      | some m =>
        have hm2 : tensorGet1 m i = tensorGet1 m j := by
          unfold tensorGet1
          apply pyGet_congr
          rw [hinv.2 m hm]
          exact h
        show (match tensorGet1 m i with
          | none => none
          | some mv =>
            some (dictSet (dictSet base "id" (Val.scalar idv)) "label" (Val.scalar mv))) =
          (match tensorGet1 m j with
          | none => none
          | some mv =>
            some (dictSet (dictSet base "id" (Val.scalar idv)) "label" (Val.scalar mv)))
        rw [hm2]

/-- A store-disciplined `__getitem__` signals failure exactly when its pure
item function does. -/
theorem implements_fst_none_iff {w : Wrapped} {f : Int → Option Item}
    (hw : w.Implements f) (idx : Int) (s : Store) :
    ((w.getitem idx s).1 = none) ↔ f idx = none := by
  rw [hw idx s]
  cases f idx with
  | none => simp
  | some it => simp

theorem toyTokenizer_shapes : TokenizerShapes toyTokenizer := by
  intro ss p hp
  simp [toyTokenizer] at hp
  rcases hp with h | h <;> subst h <;> simp

theorem toyTokenizer_nolabel : TokenizerNoLabelKey toyTokenizer := by
  intro ss
  simp [toyTokenizer]

theorem C1_loader_items_witness :
    ∃ d, get_dataset toyTokenizer exCSV = Except.ok d ∧ d.len = 2 ∧
      ∀ i : Nat, i < 2 → ∃ it, d.getitemVal (i : Int) = some it ∧
        dictGet it "id" = (([1, 2] : List ℚ).get? i).map Val.scalar ∧
        dictGet it "label" = (([3, 5] : List ℚ).get? i).map Val.scalar :=
  (C1_loader_items toyTokenizer exCSV 2 [1, 2] ["a b", "c"]
    toyTokenizer_shapes toyTokenizer_nolabel rfl rfl rfl rfl).1 [3, 5] rfl rfl

/-- C2: the fine-tuning adapter's `length()` equals the wrapped container's;
its `item_at(i)` is the wrapped `item_at(i)` with the `id` entry removed and
every other entry unchanged; the removal is a no-op when `id` is absent. -/
theorem C2_adapter_delegates (w : Wrapped) (f : Int → Option Item)
    (hw : w.Implements f) :
    (SentenceComplexityFinetuningDataset.mk w).len = w.len ∧
    (∀ idx s, (SentenceComplexityFinetuningDataset.mk w).toWrapped.contents idx s =
      (f idx).map (fun it => dictPop it "id")) ∧
    (∀ it : Item, dictGet (dictPop it "id") "id" = none) ∧
    (∀ (it : Item) (k : String), k ≠ "id" → dictGet (dictPop it "id") k = dictGet it k) ∧
    (∀ it : Item, dictGet it "id" = none → dictPop it "id" = it) := by
  refine ⟨rfl, ?_, ?_, ?_, ?_⟩
  · intro idx s
    exact contents_of_implements (adapter_implements hw) idx s
  · intro it
    exact dictGet_dictPop_self it "id"
  · intro it k hk
    exact dictGet_dictPop_ne it "id" k hk
  · intro it h
    exact dictPop_eq_self_of_absent h

theorem C2_adapter_delegates_witness :
    (SentenceComplexityFinetuningDataset.mk exDataset.toWrapped).len =
      exDataset.toWrapped.len ∧
    (SentenceComplexityFinetuningDataset.mk exDataset.toWrapped).toWrapped.contents 0 [] =
      (exDataset.getitemVal 0).map (fun it => dictPop it "id") := by
  have h := C2_adapter_delegates exDataset.toWrapped exDataset.getitemVal
    (base_implements exDataset)
  exact ⟨h.1, h.2.1 0 []⟩

/-- C3 counterexample: on a concrete nonempty container, `item_at(-1)` does
not fail — it succeeds for both container types — refuting the claim that
`item_at(-1)` fails with an out-of-range error. -/
theorem C3_boundary_counterexample :
    exDataset.len = 2 ∧ exDataset.getitemVal (-1) ≠ none ∧
    (SentenceComplexityFinetuningDataset.mk exDataset.toWrapped).len = 2 ∧
    ((SentenceComplexityFinetuningDataset.mk exDataset.toWrapped).getitem (-1) []).1 ≠
      none := by
  refine ⟨rfl, by decide, rfl, by decide⟩

/-- C3 (amended): `item_at(length())` fails with an index error for both
container types; `item_at(-1)` fails only when the container is empty; in
general `item_at(idx)` fails exactly when `idx` is outside
`[-length(), length())`, and the failure is an error of that call only. -/
theorem C3_amended_index_errors (d : SentenceComplexityDataset)
    (hinv : DatasetInvariant d) (idx : Int) :
    (d.getitemVal (d.len : Int) = none) ∧
    (∀ s, ((SentenceComplexityFinetuningDataset.mk d.toWrapped).toWrapped.getitem
      ((d.len : Int)) s).1 = none) ∧
    (d.getitemVal (-1) = none ↔ d.len = 0) ∧
    (d.getitemVal idx = none ↔ ¬(-(d.len : Int) ≤ idx ∧ idx < (d.len : Int))) ∧
    (∀ s, (((SentenceComplexityFinetuningDataset.mk d.toWrapped).toWrapped.getitem
      idx s).1 = none ↔
      ¬(-(d.len : Int) ≤ idx ∧ idx < (d.len : Int)))) := by
  have hb := base_implements d
  have ha := adapter_implements hb
  have hchar := fun i => getitemVal_eq_none_iff hinv i
  refine ⟨?_, ?_, ?_, hchar idx, ?_⟩
  · rw [hchar (d.len : Int)]
    omega
  · intro s
    rw [implements_fst_none_iff ha (d.len : Int) s]
    show (d.getitemVal (d.len : Int)).map (fun it => dictPop it "id") = none
    rw [(hchar (d.len : Int)).mpr (by omega)]
    rfl
  · rw [hchar (-1)]
    omega
  · intro s
    rw [implements_fst_none_iff ha idx s]
    show (d.getitemVal idx).map (fun it => dictPop it "id") = none ↔ _
    rw [Option.map_eq_none']
    exact hchar idx

theorem C3_amended_index_errors_witness :
    exDataset.getitemVal (exDataset.len : Int) = none ∧
    (exDataset.getitemVal (5 : Int) = none ↔
      ¬(-(exDataset.len : Int) ≤ (5 : Int) ∧ (5 : Int) < (exDataset.len : Int))) := by
  have h := C3_amended_index_errors exDataset (by decide) 5
  exact ⟨h.1, h.2.2.2.1⟩

/-- C4: a successfully built item carries the `label` entry exactly when
targets are set on the container — per container, not per index. -/
theorem C4_label_all_or_nothing (d : SentenceComplexityDataset)
    (hinv : DatasetInvariant d) (hlab : "label" ∉ d.st.map Prod.fst)
    (idx : Int) (it : Item) (h : d.getitemVal idx = some it) :
    ((dictGet it "label").isSome ↔ d.mos.isSome) := by
  have hpj : ∃ j, pyIndex d.len idx = some j := by
    cases hpj : pyIndex d.len idx with
    | none =>
      rw [getitemVal_none_of_bad hpj] at h
      exact absurd h (by simp)
    | some j => exact ⟨j, rfl⟩
  obtain ⟨j, hj⟩ := hpj
  obtain ⟨it2, hit2, _, hsome, hnone⟩ := getitemVal_spec hinv hj
  rw [h] at hit2
  injection hit2 with hit2
  subst hit2
  cases hm : d.mos with
  | none => simp [hnone hm hlab]
  | some m =>
    have hjm : j < m.length := by
      rw [hinv.2 m hm]
      exact pyIndex_lt hj
    obtain ⟨mv, hmv⟩ := get?_isSome_of_lt hjm
    rw [hsome m hm, hmv]
    simp

theorem C4_label_all_or_nothing_witness :
    (dictGet [("input_ids", Val.vec [1, 2]), ("attention_mask", Val.vec [1, 1]),
      ("id", Val.scalar 10), ("label", Val.scalar 3)] "label").isSome ↔
      exDataset.mos.isSome :=
  C4_label_all_or_nothing exDataset (by decide) (by decide) 0 _ (by decide)

/-- C5: every container the loader produces satisfies the invariant that all
tokenized-batch fields have first-axis size `len(id)` and the target vector,
when present, has that length; no container operation returns a modified
container (all take it immutably), so the invariant is preserved by every
operation. -/
theorem C5_loader_invariant (tok : Tokenizer) (csv : CSVFile)
    (d : SentenceComplexityDataset) (htok : TokenizerShapes tok)
    (ids : List ℚ) (ss : List String)
    (hid : csv.sent_id = some ids) (hsent : csv.sentence = some ss)
    (hlen : ids.length = ss.length)
    (hmos : ∀ ms ∈ csv.mos, ms.length = ss.length)
    (h : get_dataset tok csv = Except.ok d) :
    DatasetInvariant d :=
  get_dataset_invariant htok hid hsent hlen hmos h

theorem C5_loader_invariant_witness :
    DatasetInvariant
      { st := toyTokenizer ["a b", "c"], id := [1, 2],
        mos := match exCSV.mos with
               | none => none
               | some m => if m.isEmpty then none else some m } :=
  C5_loader_invariant toyTokenizer exCSV _ toyTokenizer_shapes [1, 2] ["a b", "c"]
    rfl rfl rfl (by decide) (get_dataset_eq rfl rfl)

/-- C6: a CSV lacking the `sent_id` or the `sentence` column makes the
loader fail immediately with a missing-column (KeyError) error. -/
theorem C6_missing_column (tok : Tokenizer) (csv : CSVFile)
    (h : csv.sent_id = none ∨ csv.sentence = none) :
    ∃ e, get_dataset tok csv = Except.error e := by
  unfold get_dataset
  rcases h with h | h
  · rw [h]
    exact ⟨"KeyError: sent_id", rfl⟩
  · cases hs : csv.sent_id with
    | none => exact ⟨"KeyError: sent_id", rfl⟩
    | some ids =>
      rw [h]
      exact ⟨"KeyError: sentence", rfl⟩

theorem C6_missing_column_witness :
    ∃ e, get_dataset toyTokenizer exCSVNoId = Except.error e :=
  C6_missing_column toyTokenizer exCSVNoId (Or.inl rfl)

/-- C7: the primary container's constructor succeeds whether or not the
target key is present — converting the targets when the key is there and
leaving them unset, without error, when it is not. -/
theorem C7_init_tolerates_missing_targets (data : RawData)
    (st0 : List (String × List (List ℚ))) (id0 : List ℚ)
    (hst : data.st = some st0) (hid : data.id = some id0) :
    ∃ d, SentenceComplexityDataset.init data = Except.ok d ∧
      d.st = st0 ∧ d.id = id0 ∧ d.mos = data.mos := by
  unfold SentenceComplexityDataset.init
  rw [hst, hid]
  exact ⟨_, rfl, rfl, rfl, rfl⟩

theorem C7_init_tolerates_missing_targets_witness :
    ∃ d, SentenceComplexityDataset.init
        { st := some exSt, id := some [10, 20], mos := none } = Except.ok d ∧
      d.st = exSt ∧ d.id = [10, 20] ∧ d.mos = none :=
  C7_init_tolerates_missing_targets
    { st := some exSt, id := some [10, 20], mos := none } exSt [10, 20] rfl rfl

/-- C8: for both container types, two successive `item_at(i)` calls with the
same `i` return items with equal contents, and neither call changes any
pre-existing store cell or the container's fields (no operation returns a
modified container). -/
theorem C8_item_at_idempotent (d : SentenceComplexityDataset) (idx : Int)
    (s : Store) :
    (d.toWrapped.contents idx ((d.toWrapped.getitem idx s).2) =
      d.toWrapped.contents idx s) ∧
    (∀ a, a < s.length → ((d.toWrapped.getitem idx s).2).get? a = s.get? a) ∧
    ((SentenceComplexityFinetuningDataset.mk d.toWrapped).toWrapped.contents idx
        (((SentenceComplexityFinetuningDataset.mk d.toWrapped).toWrapped.getitem
          idx s).2) =
      (SentenceComplexityFinetuningDataset.mk d.toWrapped).toWrapped.contents idx s) ∧
    (∀ a, a < s.length →
      (((SentenceComplexityFinetuningDataset.mk d.toWrapped).toWrapped.getitem
        idx s).2).get? a = s.get? a) := by
  have hb := base_implements d
  have ha := adapter_implements hb
  refine ⟨?_, ?_, ?_, ?_⟩
  · rw [contents_of_implements hb, contents_of_implements hb]
  · intro a haa
    exact implements_frame hb idx s haa
  · rw [contents_of_implements ha, contents_of_implements ha]
  · intro a haa
    exact implements_frame ha idx s haa

theorem C8_item_at_idempotent_witness :
    exDataset.toWrapped.contents 0 ((exDataset.toWrapped.getitem 0 []).2) =
      exDataset.toWrapped.contents 0 [] :=
  (C8_item_at_idempotent exDataset 0 []).1

/-- C9: on a container with `length() = n ≥ 1`, `item_at(-k)` for
`1 ≤ k ≤ n` succeeds and returns the item of index `n - k`, and the adapter
inherits this negative-index behaviour from the container it wraps. -/
theorem C9_negative_indexing (d : SentenceComplexityDataset)
    (hinv : DatasetInvariant d) (k : Nat) (h1 : 1 ≤ k) (h2 : k ≤ d.len) :
    d.getitemVal (-(k : Int)) = d.getitemVal ((d.len - k : Nat) : Int) ∧
    (d.getitemVal (-(k : Int))).isSome ∧
    (∀ s, (SentenceComplexityFinetuningDataset.mk
        d.toWrapped).toWrapped.contents (-(k : Int)) s =
      (SentenceComplexityFinetuningDataset.mk
        d.toWrapped).toWrapped.contents ((d.len - k : Nat) : Int) s ∧
      ((SentenceComplexityFinetuningDataset.mk
        d.toWrapped).toWrapped.contents (-(k : Int)) s).isSome) := by
  have ha := adapter_implements (base_implements d)
  have hpy : pyIndex d.len (-(k : Int)) = pyIndex d.len ((d.len - k : Nat) : Int) := by
    rw [pyIndex_neg h1 h2, pyIndex_ofNat (by omega)]
  have hcongr := getitemVal_congr hinv hpy
  obtain ⟨it, hit⟩ := getitemVal_isSome_of hinv (pyIndex_neg h1 h2)
  refine ⟨hcongr, by rw [hit]; rfl, ?_⟩
  intro s
  constructor
  · rw [contents_of_implements ha, contents_of_implements ha]
    show (d.getitemVal (-(k : Int))).map (fun it => dictPop it "id") = _
    rw [hcongr]
  · rw [contents_of_implements ha]
    show ((d.getitemVal (-(k : Int))).map (fun it => dictPop it "id")).isSome = true
    rw [hit]
    rfl

theorem C9_negative_indexing_witness :
    exDataset.getitemVal (-1 : Int) =
      exDataset.getitemVal ((exDataset.len - 1 : Nat) : Int) ∧
    (exDataset.getitemVal (-1 : Int)).isSome := by
  have h := C9_negative_indexing exDataset (by decide) 1 (by decide) (by decide)
  exact ⟨h.1, h.2.1⟩

/-- C10: the primary `item_at` allocates a fresh mapping at a fresh address
and never touches existing cells, so the adapter's in-place `pop` of the
`id` entry alters only that fresh dict: the wrapped container's fields are
unchanged and every subsequent `item_at` on the wrapped container returns
the same contents as before. -/
theorem C10_fresh_item_no_interference (d : SentenceComplexityDataset)
    (idx : Int) (s : Store) :
    (∀ a, (d.toWrapped.getitem idx s).1 = some a → a = s.length) ∧
    (∀ a, a < s.length → ((d.toWrapped.getitem idx s).2).get? a = s.get? a) ∧
    (∀ a, a < s.length →
      (((SentenceComplexityFinetuningDataset.mk d.toWrapped).toWrapped.getitem
        idx s).2).get? a = s.get? a) ∧
    (∀ j : Int, d.toWrapped.contents j
        (((SentenceComplexityFinetuningDataset.mk d.toWrapped).toWrapped.getitem
          idx s).2) = d.getitemVal j) := by
  have hb := base_implements d
  have ha := adapter_implements hb
  refine ⟨?_, ?_, ?_, ?_⟩
  · intro a haa
    rw [hb idx s] at haa
    cases hgi : d.getitemVal idx with
    | none =>
      rw [hgi] at haa
      simp at haa
    | some it =>
      rw [hgi] at haa
      simp at haa
      omega
  · intro a haa
    exact implements_frame hb idx s haa
  · intro a haa
    exact implements_frame ha idx s haa
  · intro j
    exact contents_of_implements hb j _

theorem C10_fresh_item_no_interference_witness :
    exDataset.toWrapped.contents 1
        (((SentenceComplexityFinetuningDataset.mk
          exDataset.toWrapped).toWrapped.getitem 0 []).2) =
      exDataset.getitemVal 1 :=
  (C10_fresh_item_no_interference exDataset 0 []).2.2.2 1
